import Mathlib

/-!
Verification of the `cmd-queue` command-execution queue
(`src/rust/cmd-queue`): a shallow embedding of the in-memory queue
(`queue.rs`), the retry policy (`execution/mod.rs`) and the scheduler
(`execution/scheduler.rs`), together with theorems about their behaviour.

Modelling conventions:
- `SegQueue<Task>` is a `List Task` (push appends at the tail, pop takes
  the head);
- `DashMap<String, Task>` and the PickleDb store are association lists
  `List (String × Task)` with upsert (`dbSet`), delete (`dbRem`) and
  remove-returning-the-value (`dashRemove`);
- `SystemTime` is a `Nat` (seconds); `Duration::from_secs` is the
  number of seconds itself;
- fallible PickleDb writes take an explicit `writeOk : Bool` oracle:
  `true` models a successful write, `false` a write that fails with
  `PickleDbWriteError`, exactly at the point where the Rust code calls
  the store;
- a Rust `panic!` / `expect` failure is the `panicked` outcome carrying
  the mutations performed before the panic (the thread dies, the shared
  state keeps them);
- `nanoid` id generation is modelled by passing the generated id as an
  argument; freshness assumptions are explicit hypotheses where used.
-/

namespace CmdQueue

/-- `CommandRequest` from `lib.rs`: working directory, program, arguments. -/
structure CommandRequest where
  path : String
  program : String
  args : List String
deriving DecidableEq

/-- `Task` from `lib.rs`; `Default` gives `tries = 0`, `last_attempt = None`. -/
structure Task where
  id : String
  command : CommandRequest
  tries : Nat
  last_attempt : Option Nat
deriving DecidableEq

/-- `TaskRunResult` from `lib.rs`. -/
inductive TaskRunResult
  | Completed
  | Failed
  | Skipped
deriving DecidableEq

/-- The `CmdqError` constructors used by `queue.rs` (payloads elided). -/
inductive CmdqError
  | PickleLoadDbError (path : String)
  | PickleDbWriteError
deriving DecidableEq

/-- Association-list model of a `String → Task` key-value store. -/
abbrev Store := List (String × Task)

/-- The keys of a store. -/
def storeKeys (l : Store) : List String := l.map Prod.fst

/-- Upsert: `DashMap::insert` / `PickleDb::set` (replace the key if present,
append otherwise). -/
def dbSet : Store → String → Task → Store
  | [], k, v => [(k, v)]
  | (k', v') :: rest, k, v =>
      if k' = k then (k, v) :: rest else (k', v') :: dbSet rest k v

/-- Delete: `PickleDb::rem` (removing an absent key is a no-op). -/
def dbRem : Store → String → Store
  | [], _ => []
  | (k', v') :: rest, k =>
      if k' = k then rest else (k', v') :: dbRem rest k

/-- `DashMap::remove`: the removed value (if any) and the remaining map. -/
def dashRemove : Store → String → Option Task × Store
  | [], _ => (none, [])
  | (k', v') :: rest, k =>
      if k' = k then (some v', rest)
      else ((dashRemove rest k).1, (k', v') :: (dashRemove rest k).2)

/-- The state of an `InMemoryQueue` (`queue.rs`): the `SegQueue` FIFO, the
`running` DashMap, and the PickleDb contents. -/
structure QueueState where
  queue : List Task
  running : Store
  pickledb : Store
deriving DecidableEq

namespace InMemoryQueue

/-- `InMemoryQueue::new` when the db file exists and holds `db`: every
persisted record is pushed into the FIFO; `running` starts empty. -/
def new (db : Store) : QueueState :=
  { queue := db.map Prod.snd, running := [], pickledb := db }

/-- `InMemoryQueue::new` when no db file exists. -/
def newEmpty : QueueState := new []

/-- Result of `push` / `push_cmd`: the queue state after the call together
with the error returned, if any.  Mutations performed before a failing
write are kept, as in the Rust code. -/
structure PushResult where
  state : QueueState
  err : Option CmdqError
deriving DecidableEq

/-- `InMemoryQueue::push`: append to the FIFO first, then write the record
to the store; a failing write leaves the FIFO push in place. -/
def push (s : QueueState) (task : Task) (writeOk : Bool) : PushResult :=
  let s1 : QueueState := { s with queue := s.queue ++ [task] }
  if writeOk then
    { state := { s1 with pickledb := dbSet s1.pickledb task.id task }, err := none }
  else
    { state := s1, err := some CmdqError.PickleDbWriteError }

/-- `InMemoryQueue::push_cmd`: build a `Task` with the generated `id`,
`tries = 0`, `last_attempt = None`, and push it. -/
def push_cmd (s : QueueState) (id : String) (command : CommandRequest)
    (writeOk : Bool) : PushResult :=
  push s { id := id, command := command, tries := 0, last_attempt := none } writeOk

/-- `InMemoryQueue::pop_next`: pop the FIFO head and insert it unchanged
into the `running` map; the persistence store is not touched. -/
def pop_next (s : QueueState) : Option Task × QueueState :=
  match s.queue with
  | [] => (none, s)
  | task :: rest =>
      (some task, { s with queue := rest, running := dbSet s.running task.id task })

/-- Outcome of `InMemoryQueue::update`: normal return, returned error, or a
panic of the calling thread (`expect` failure), each with the state left
behind. -/
inductive UpdateResult
  | ok (s : QueueState)
  | err (e : CmdqError) (s : QueueState)
  | panicked (s : QueueState)
deriving DecidableEq

/-- `InMemoryQueue::update`.  `Completed` removes the id from `running` and
from the store; `Failed` removes it from `running` (panicking when absent),
bumps `tries`, stamps `last_attempt := now`, rewrites the store record and
requeues at the tail; `Skipped` removes it from `running` (panicking when
absent) and requeues the unchanged task at the tail. -/
def update (s : QueueState) (id : String) (state : TaskRunResult) (now : Nat)
    (writeOk : Bool) : UpdateResult :=
  match state with
  | TaskRunResult.Completed =>
      let s1 : QueueState := { s with running := (dashRemove s.running id).2 }
      if writeOk then UpdateResult.ok { s1 with pickledb := dbRem s1.pickledb id }
      else UpdateResult.err CmdqError.PickleDbWriteError s1
  | TaskRunResult.Failed =>
      match dashRemove s.running id with
      | (none, _) => UpdateResult.panicked s
      | (some task, running') =>
          let task' : Task :=
            { task with tries := task.tries + 1, last_attempt := some now }
          if writeOk then
            UpdateResult.ok { s with running := running',
                                     pickledb := dbSet s.pickledb task'.id task',
                                     queue := s.queue ++ [task'] }
          else UpdateResult.err CmdqError.PickleDbWriteError { s with running := running' }
  | TaskRunResult.Skipped =>
      match dashRemove s.running id with
      | (none, _) => UpdateResult.panicked s
      | (some task, running') =>
          UpdateResult.ok { s with running := running', queue := s.queue ++ [task] }

/-- `InMemoryQueue::queued`: iterates the PickleDb store, not the FIFO. -/
def queued (s : QueueState) : List Task := s.pickledb.map Prod.snd

/-- `InMemoryQueue::running`: the values of the `running` map. -/
def running (s : QueueState) : List Task := s.running.map Prod.snd

end InMemoryQueue

/-- `MAX_RETRIES` from `execution/mod.rs`. -/
def MAX_RETRIES : Nat := 20

/-- `MAX_DELAY_SECONDS` from `execution/mod.rs`. -/
def MAX_DELAY_SECONDS : Nat := 600

/-- `DELAY_SECONDS` from `execution/mod.rs`. -/
def DELAY_SECONDS : Nat := 2

/-- `delay` from `execution/mod.rs`, in seconds: `DELAY_SECONDS ^ tries`
capped at `MAX_DELAY_SECONDS`. -/
def delay (tries : Nat) : Nat :=
  let d := DELAY_SECONDS ^ tries
  if d > MAX_DELAY_SECONDS then MAX_DELAY_SECONDS else d

/-- The backoff condition tested first by `run_task`
(`execution/scheduler.rs`): `tries > 1` and the last attempt plus the
backoff delay is still in the future (`None` counts as elapsed). -/
def backoffPending (task : Task) (now : Nat) : Bool :=
  decide (task.tries > 1) &&
    (match task.last_attempt with
     | some la => decide (la + delay task.tries > now)
     | none => false)

/-- The branch `run_task` takes: skip for backoff, silently drop on retry
exhaustion, or execute the subprocess.  `execResult` is the subprocess
outcome: `none` is a spawn failure, `some b` an exit with success flag `b`. -/
inductive RunDecision
  | skippedBackoff
  | droppedExhausted
  | executed (execResult : Option Bool)
deriving DecidableEq

/-- The branch structure of `run_task` (`execution/scheduler.rs`). -/
def runTaskDecision (task : Task) (now : Nat) (execResult : Option Bool) :
    RunDecision :=
  if backoffPending task now then RunDecision.skippedBackoff
  else if task.tries > MAX_RETRIES then RunDecision.droppedExhausted
  else RunDecision.executed execResult

/-- How `run_task` maps a subprocess outcome to the reported
`TaskRunResult`: a successful exit reports `Completed`; a non-zero exit or
a spawn failure reports `Failed`. -/
def reportedOutcome : Option Bool → TaskRunResult
  | some true => TaskRunResult.Completed
  | some false => TaskRunResult.Failed
  | none => TaskRunResult.Failed

/-- The queue state an `update` call leaves behind, whichever way it ends
(`run_task` only logs update errors, and a panic keeps prior mutations). -/
def stateOf : InMemoryQueue.UpdateResult → QueueState
  | InMemoryQueue.UpdateResult.ok s => s
  | InMemoryQueue.UpdateResult.err _ s => s
  | InMemoryQueue.UpdateResult.panicked s => s

/-- The effect of `run_task` (`execution/scheduler.rs`) on the queue state:
the backoff branch reports `Skipped`; the exhaustion branch returns without
calling `update`; the execution branch reports the subprocess outcome. -/
def run_task (task : Task) (s : QueueState) (now : Nat)
    (execResult : Option Bool) (writeOk : Bool) : QueueState :=
  match runTaskDecision task now execResult with
  | RunDecision.skippedBackoff =>
      stateOf (InMemoryQueue.update s task.id TaskRunResult.Skipped now writeOk)
  | RunDecision.droppedExhausted => s
  | RunDecision.executed er =>
      stateOf (InMemoryQueue.update s task.id (reportedOutcome er) now writeOk)

/-- The ids of the tasks in the FIFO. -/
def queueIds (s : QueueState) : List String := s.queue.map Task.id

/-- The keys of the `running` map. -/
def runningKeys (s : QueueState) : List String := storeKeys s.running

/-- Every id known to the queue state, in any collection. -/
def allIds (s : QueueState) : List String :=
  queueIds s ++ runningKeys s ++ storeKeys s.pickledb

/-- One operation on the shared `InMemoryQueue`, as performed by clients
(`push_cmd`) and the scheduler (`pop_next`, `update`).  The id passed to
`push_cmd` is the freshly generated nanoid, assumed collision-free. -/
inductive QStep : QueueState → QueueState → Prop
  | push (s : QueueState) (id : String) (cmd : CommandRequest) (writeOk : Bool)
      (hfresh : id ∉ allIds s) :
      QStep s (InMemoryQueue.push_cmd s id cmd writeOk).state
  | pop (s : QueueState) : QStep s (InMemoryQueue.pop_next s).2
  | upd (s : QueueState) (id : String) (r : TaskRunResult) (now : Nat)
      (writeOk : Bool) :
      QStep s (stateOf (InMemoryQueue.update s id r now writeOk))

/-- Queue states reachable from a fresh server start (no db file). -/
inductive QReach : QueueState → Prop
  | init : QReach InMemoryQueue.newEmpty
  | step {s s' : QueueState} : QReach s → QStep s s' → QReach s'

/-- The internal invariant: no id occurs twice across the FIFO and the
`running` map, and each `running` entry is keyed by its task's id. -/
def Inv (s : QueueState) : Prop :=
  (queueIds s ++ runningKeys s).Nodup ∧ ∀ p ∈ s.running, (Prod.snd p).id = p.1

/-- State of `TaskScheduler::run_loop` and its workers
(`execution/scheduler.rs`): the shared queue, the workers that have been
spawned but have not yet incremented `num_running_tasks`, the workers
between their increment and their decrement, and the counter itself. -/
structure SchedState where
  qs : QueueState
  pending : List Task
  active : List Task
  num_running_tasks : Nat
deriving DecidableEq

/-- One atomic step of the scheduler system with `N = num_workers`:
`loopPop` is one iteration of the `while` loop in `run_loop` (guard checked
against the current counter, then `pop_next`, then `thread::spawn`);
`workerInc` is a spawned worker taking the lock and incrementing the
counter; `workerRun` is a worker finishing `run_task` and decrementing. -/
inductive SchedStep (N : Nat) : SchedState → SchedState → Prop
  | loopPop (st st' : SchedState) (task : Task) (s' : QueueState)
      (hcnt : st.num_running_tasks < N)
      (hpop : InMemoryQueue.pop_next st.qs = (some task, s'))
      (hst : st' = { st with qs := s', pending := st.pending ++ [task] }) :
      SchedStep N st st'
  | workerInc (st st' : SchedState) (task : Task) (l1 l2 : List Task)
      (hp : st.pending = l1 ++ task :: l2)
      (hst : st' = { st with pending := l1 ++ l2, active := st.active ++ [task],
                             num_running_tasks := st.num_running_tasks + 1 }) :
      SchedStep N st st'
  | workerRun (st st' : SchedState) (task : Task) (l1 l2 : List Task)
      (now : Nat) (execResult : Option Bool) (writeOk : Bool)
      (ha : st.active = l1 ++ task :: l2)
      (hst : st' = { st with active := l1 ++ l2,
                             qs := run_task task st.qs now execResult writeOk,
                             num_running_tasks := st.num_running_tasks - 1 }) :
      SchedStep N st st'

/-- Interleavings of the scheduler system. -/
inductive SchedReach (N : Nat) : SchedState → SchedState → Prop
  | refl (st : SchedState) : SchedReach N st st
  | tail {st st' st'' : SchedState} (h : SchedReach N st st')
      (hstep : SchedStep N st' st'') : SchedReach N st st''

/-! ### Store lemmas -/

theorem dbSet_of_not_mem (l : Store) (k : String) (v : Task)
    (h : k ∉ storeKeys l) : dbSet l k v = l ++ [(k, v)] := by
  induction l with
  | nil => rfl
  | cons p rest ih =>
      obtain ⟨k', v'⟩ := p
      simp only [storeKeys, List.map_cons, List.mem_cons, not_or] at h
      have hne : ¬ (k' = k) := Ne.symm h.1
      simp only [dbSet, if_neg hne, List.cons_append, List.cons.injEq, true_and]
      exact ih h.2

theorem dashRemove_of_not_mem (l : Store) (k : String)
    (h : k ∉ storeKeys l) : dashRemove l k = (none, l) := by
  induction l with
  | nil => rfl
  | cons p rest ih =>
      obtain ⟨k', v'⟩ := p
      simp only [storeKeys, List.map_cons, List.mem_cons, not_or] at h
      have hne : ¬ (k' = k) := Ne.symm h.1
      simp [dashRemove, if_neg hne, ih h.2]

theorem dashRemove_snd_sublist (l : Store) (k : String) :
    List.Sublist ((dashRemove l k).2) l := by
  induction l with
  | nil => simp [dashRemove]
  | cons p rest ih =>
      obtain ⟨k', v'⟩ := p
      by_cases hk : k' = k
      · simp only [dashRemove, if_pos hk]
        exact List.sublist_cons_self _ _
      · simpa [dashRemove, if_neg hk] using ih.cons₂ (k', v')

theorem dashRemove_eq_some (l : Store) (k : String) (v : Task)
    (h : (dashRemove l k).1 = some v) :
    ∃ l1 l2, l = l1 ++ (k, v) :: l2 ∧ (dashRemove l k).2 = l1 ++ l2 := by
  induction l with
  | nil => simp [dashRemove] at h
  | cons p rest ih =>
      obtain ⟨k', v'⟩ := p
      by_cases hk : k' = k
      · subst hk
        simp [dashRemove] at h
        subst h
        exact ⟨[], rest, by simp [dashRemove]⟩
      · simp only [dashRemove, if_neg hk] at h
        obtain ⟨l1, l2, hl, hr⟩ := ih h
        refine ⟨(k', v') :: l1, l2, by simp [hl], ?_⟩
        simp only [dashRemove, if_neg hk, List.cons_append, List.cons.injEq, true_and]
        exact hr

/-! ### Nodup bookkeeping lemmas -/

theorem nodup_insert_middle {A B : List String} {a : String}
    (ha : a ∉ A ++ B) (h : (A ++ B).Nodup) : ((A ++ [a]) ++ B).Nodup := by
  have heq : (A ++ [a]) ++ B = A ++ a :: B := by simp
  rw [heq]
  exact List.nodup_middle.mpr (List.nodup_cons.mpr ⟨ha, h⟩)

theorem nodup_move_head_to_tail {A B : List String} {a : String}
    (h : ((a :: A) ++ B).Nodup) : (A ++ (B ++ [a])).Nodup := by
  have h' : (a :: (A ++ B)).Nodup := by simpa using h
  have p1 : List.Perm ((A ++ B) ++ [a]) (a :: (A ++ B)) := by
    simpa using (@List.perm_middle String a (A ++ B) [])
  have h2 : ((A ++ B) ++ [a]).Nodup := p1.symm.nodup h'
  simpa [List.append_assoc] using h2

theorem nodup_move_middle_to_tail {A B C : List String} {a : String}
    (h : (A ++ (B ++ a :: C)).Nodup) : ((A ++ [a]) ++ (B ++ C)).Nodup := by
  have p1 : List.Perm (A ++ (B ++ a :: C)) (a :: (A ++ (B ++ C))) := by
    have hm := @List.perm_middle String a (A ++ B) C
    simpa [List.append_assoc] using hm
  have p2 : List.Perm ((A ++ [a]) ++ (B ++ C)) (a :: (A ++ (B ++ C))) := by
    simp only [List.append_assoc, List.singleton_append]
    exact @List.perm_middle String a A (B ++ C)
  exact (p1.trans p2.symm).nodup h

/-! ### Unfolding equations for `update` -/

theorem update_Completed_eq (s : QueueState) (id : String) (now : Nat) (wok : Bool) :
    stateOf (InMemoryQueue.update s id TaskRunResult.Completed now wok)
      = { s with running := (dashRemove s.running id).2,
                 pickledb := if wok then dbRem s.pickledb id else s.pickledb } := by
  cases wok <;> rfl

theorem update_Failed_none (s : QueueState) (id : String) (now : Nat) (wok : Bool)
    (rr : Store) (h : dashRemove s.running id = (none, rr)) :
    InMemoryQueue.update s id TaskRunResult.Failed now wok
      = InMemoryQueue.UpdateResult.panicked s := by
  unfold InMemoryQueue.update
  rw [h]

theorem update_Skipped_none (s : QueueState) (id : String) (now : Nat) (wok : Bool)
    (rr : Store) (h : dashRemove s.running id = (none, rr)) :
    InMemoryQueue.update s id TaskRunResult.Skipped now wok
      = InMemoryQueue.UpdateResult.panicked s := by
  unfold InMemoryQueue.update
  rw [h]

theorem update_Failed_some_ok (s : QueueState) (id : String) (task : Task) (now : Nat)
    (rr : Store) (h : dashRemove s.running id = (some task, rr)) :
    InMemoryQueue.update s id TaskRunResult.Failed now true
      = InMemoryQueue.UpdateResult.ok
          { s with running := rr,
                   pickledb := dbSet s.pickledb task.id
                     { task with tries := task.tries + 1, last_attempt := some now },
                   queue := s.queue ++
                     [{ task with tries := task.tries + 1, last_attempt := some now }] } := by
  unfold InMemoryQueue.update
  rw [h]
  rfl

theorem update_Failed_some_err (s : QueueState) (id : String) (task : Task) (now : Nat)
    (rr : Store) (h : dashRemove s.running id = (some task, rr)) :
    InMemoryQueue.update s id TaskRunResult.Failed now false
      = InMemoryQueue.UpdateResult.err CmdqError.PickleDbWriteError
          { s with running := rr } := by
  unfold InMemoryQueue.update
  rw [h]
  rfl

theorem update_Skipped_some_ok (s : QueueState) (id : String) (task : Task) (now : Nat)
    (wok : Bool) (rr : Store) (h : dashRemove s.running id = (some task, rr)) :
    InMemoryQueue.update s id TaskRunResult.Skipped now wok
      = InMemoryQueue.UpdateResult.ok
          { s with running := rr, queue := s.queue ++ [task] } := by
  unfold InMemoryQueue.update
  rw [h]

/-! ### Invariant preservation -/

theorem inv_newEmpty : Inv InMemoryQueue.newEmpty := by
  constructor
  · simp [queueIds, runningKeys, storeKeys, InMemoryQueue.newEmpty, InMemoryQueue.new]
  · intro p hp
    simp [InMemoryQueue.newEmpty, InMemoryQueue.new] at hp

theorem inv_push_cmd (s : QueueState) (id : String) (cmd : CommandRequest) (wok : Bool)
    (hfresh : id ∉ allIds s) (hinv : Inv s) :
    Inv (InMemoryQueue.push_cmd s id cmd wok).state := by
  obtain ⟨hnd, hkey⟩ := hinv
  have hq : (InMemoryQueue.push_cmd s id cmd wok).state.queue
      = s.queue ++ [({ id := id, command := cmd, tries := 0, last_attempt := none } : Task)] := by
    cases wok <;> rfl
  have hr : (InMemoryQueue.push_cmd s id cmd wok).state.running = s.running := by
    cases wok <;> rfl
  constructor
  · show (queueIds _ ++ runningKeys _).Nodup
    rw [queueIds, hq, runningKeys, hr]
    have hmap : (s.queue ++
        [({ id := id, command := cmd, tries := 0, last_attempt := none } : Task)]).map Task.id
          = queueIds s ++ [id] := by
      simp [queueIds]
    rw [hmap]
    refine nodup_insert_middle ?_ hnd
    intro hmem
    exact hfresh (List.mem_append_left _ hmem)
  · intro p hp
    rw [hr] at hp
    exact hkey p hp

theorem inv_pop_next (s : QueueState) (hinv : Inv s) :
    Inv (InMemoryQueue.pop_next s).2 := by
  obtain ⟨hnd, hkey⟩ := hinv
  cases hq : s.queue with
  | nil =>
      have hs : (InMemoryQueue.pop_next s).2 = s := by
        simp [InMemoryQueue.pop_next, hq]
      rw [hs]
      exact ⟨hnd, hkey⟩
  | cons t rest =>
      have hs : (InMemoryQueue.pop_next s).2
          = { s with queue := rest, running := dbSet s.running t.id t } := by
        simp [InMemoryQueue.pop_next, hq]
      have hnd' : ((t.id :: rest.map Task.id) ++ runningKeys s).Nodup := by
        rw [queueIds, hq] at hnd
        simpa using hnd
      have hnotin : t.id ∉ rest.map Task.id ++ runningKeys s :=
        (List.nodup_cons.mp (by simpa using hnd')).1
      have hidr : t.id ∉ runningKeys s := fun hb => hnotin (List.mem_append_right _ hb)
      have hset : dbSet s.running t.id t = s.running ++ [(t.id, t)] :=
        dbSet_of_not_mem _ _ _ hidr
      rw [hs]
      constructor
      · show (rest.map Task.id ++ storeKeys (dbSet s.running t.id t)).Nodup
        rw [hset]
        have hkeys : storeKeys (s.running ++ [(t.id, t)]) = runningKeys s ++ [t.id] := by
          simp [storeKeys, runningKeys]
        rw [hkeys]
        exact nodup_move_head_to_tail hnd'
      · intro p hp
        rw [hset] at hp
        rcases List.mem_append.mp hp with hold | hnew
        · exact hkey p hold
        · have : p = (t.id, t) := by simpa using hnew
          rw [this]

theorem inv_update (s : QueueState) (id : String) (r : TaskRunResult) (now : Nat)
    (wok : Bool) (hinv : Inv s) :
    Inv (stateOf (InMemoryQueue.update s id r now wok)) := by
  obtain ⟨hnd, hkey⟩ := hinv
  rcases hdr : dashRemove s.running id with ⟨o, rr⟩
  have hrr : rr = (dashRemove s.running id).2 := by rw [hdr]
  have hsubL : List.Sublist rr s.running := by
    rw [hrr]
    exact dashRemove_snd_sublist s.running id
  have hsubK : List.Sublist (storeKeys rr) (runningKeys s) := List.Sublist.map _ hsubL
  have hndK : (queueIds s ++ storeKeys rr).Nodup :=
    List.Nodup.sublist (List.Sublist.append_left hsubK _) hnd
  have hkeyK : ∀ p ∈ rr, (Prod.snd p).id = p.1 := fun p hp => hkey p (hsubL.subset hp)
  cases r with
  | Completed =>
      rw [update_Completed_eq, hdr]
      exact ⟨hndK, hkeyK⟩
  | Failed =>
      cases o with
      | none =>
          rw [update_Failed_none s id now wok rr hdr]
          exact ⟨hnd, hkey⟩
      | some task =>
          have hfst : (dashRemove s.running id).1 = some task := by rw [hdr]
          obtain ⟨l1, l2, hsplit, hsnd⟩ := dashRemove_eq_some _ _ _ hfst
          have hrr2 : rr = l1 ++ l2 := by rw [hrr, hsnd]
          have hkid : task.id = id := hkey (id, task) (by rw [hsplit]; simp)
          have hK : runningKeys s = storeKeys l1 ++ id :: storeKeys l2 := by
            rw [runningKeys, hsplit]
            simp [storeKeys]
          have hnd2 : (queueIds s ++ (storeKeys l1 ++ id :: storeKeys l2)).Nodup := by
            rw [← hK]
            exact hnd
          have hmoved := nodup_move_middle_to_tail hnd2
          have hkeyM : ∀ p ∈ rr, (Prod.snd p).id = p.1 := hkeyK
          cases wok with
          | false =>
              rw [update_Failed_some_err s id task now rr hdr]
              exact ⟨hndK, hkeyK⟩
          | true =>
              rw [update_Failed_some_ok s id task now rr hdr]
              constructor
              · show ((s.queue ++
                    [{ task with tries := task.tries + 1, last_attempt := some now }]).map
                      Task.id ++ storeKeys rr).Nodup
                have hmap : (s.queue ++
                    [{ task with tries := task.tries + 1, last_attempt := some now }]).map
                      Task.id = queueIds s ++ [id] := by
                  simp [queueIds, hkid]
                rw [hmap, hrr2]
                have hkeys2 : storeKeys (l1 ++ l2) = storeKeys l1 ++ storeKeys l2 := by
                  simp [storeKeys]
                rw [hkeys2]
                exact hmoved
              · exact hkeyM
  | Skipped =>
      cases o with
      | none =>
          rw [update_Skipped_none s id now wok rr hdr]
          exact ⟨hnd, hkey⟩
      | some task =>
          have hfst : (dashRemove s.running id).1 = some task := by rw [hdr]
          obtain ⟨l1, l2, hsplit, hsnd⟩ := dashRemove_eq_some _ _ _ hfst
          have hrr2 : rr = l1 ++ l2 := by rw [hrr, hsnd]
          have hkid : task.id = id := hkey (id, task) (by rw [hsplit]; simp)
          have hK : runningKeys s = storeKeys l1 ++ id :: storeKeys l2 := by
            rw [runningKeys, hsplit]
            simp [storeKeys]
          have hnd2 : (queueIds s ++ (storeKeys l1 ++ id :: storeKeys l2)).Nodup := by
            rw [← hK]
            exact hnd
          have hmoved := nodup_move_middle_to_tail hnd2
          rw [update_Skipped_some_ok s id task now wok rr hdr]
          constructor
          · show ((s.queue ++ [task]).map Task.id ++ storeKeys rr).Nodup
            have hmap : (s.queue ++ [task]).map Task.id = queueIds s ++ [id] := by
              simp [queueIds, hkid]
            rw [hmap, hrr2]
            have hkeys2 : storeKeys (l1 ++ l2) = storeKeys l1 ++ storeKeys l2 := by
              simp [storeKeys]
            rw [hkeys2]
            exact hmoved
          · exact hkeyK

theorem qstep_inv {s s' : QueueState} (h : QStep s s') (hinv : Inv s) : Inv s' := by
  cases h with
  | push id cmd wok hfresh => exact inv_push_cmd _ id cmd wok hfresh hinv
  | pop => exact inv_pop_next _ hinv
  | upd id r now wok => exact inv_update _ id r now wok hinv

theorem qreach_inv {s : QueueState} (h : QReach s) : Inv s := by
  induction h with
  | init => exact inv_newEmpty
  | step _ hstep ih => exact qstep_inv hstep ih

/-! ### Concrete example states -/

/-- A sample command. -/
def exCmd : CommandRequest := { path := "/tmp", program := "true", args := [] }

/-- The task `push_cmd` builds for `exCmd` under the generated id `"a"`. -/
def exTask : Task := { id := "a", command := exCmd, tries := 0, last_attempt := none }

/-- A fresh queue after one successful submit of `exCmd`. -/
def exPushed : QueueState :=
  (InMemoryQueue.push_cmd InMemoryQueue.newEmpty "a" exCmd true).state

/-- That queue after one `pop_next`: the task is now in flight. -/
def exPopped : QueueState := (InMemoryQueue.pop_next exPushed).2

/-! ### Claim C1 -/

/-- Claim C1 (counterexample): after one submit and one dequeue, the id
`"a"` appears simultaneously in the `queued()` snapshot and in the
`running()` snapshot: `queued()` reads the persistence store, which still
holds the record of the in-flight task, so the exactly-one-of property
fails for the snapshots the claim talks about. -/
theorem queued_running_overlap :
    "a" ∈ (InMemoryQueue.queued exPopped).map Task.id ∧
    "a" ∈ (InMemoryQueue.running exPopped).map Task.id := by
  decide

/-- Claim C1 (amended): in every reachable queue state, a task id is never
simultaneously in the in-memory FIFO and in the running map — the
exactly-one-of invariant holds for the two internal collections.  (It does
not hold for the `queued()` snapshot, which reads the persistence store
and therefore also lists records of running tasks.) -/
theorem internal_fifo_running_disjoint {s : QueueState} (h : QReach s) (id : String) :
    ¬ (id ∈ queueIds s ∧ id ∈ runningKeys s) := by
  obtain ⟨hnd, -⟩ := qreach_inv h
  intro hc
  exact (List.disjoint_of_nodup_append hnd) hc.1 hc.2

/-- Witness for `internal_fifo_running_disjoint` at the concrete reachable
state `exPopped`. -/
theorem internal_fifo_running_disjoint_witness :
    ¬ ("a" ∈ queueIds exPopped ∧ "a" ∈ runningKeys exPopped) :=
  internal_fifo_running_disjoint
    (QReach.step
      (QReach.step QReach.init (QStep.push InMemoryQueue.newEmpty "a" exCmd true (by decide)))
      (QStep.pop exPushed)) "a"

/-! ### Claim C2 -/

/-- Claim C2 (counterexample): when the persistence write during submit
fails, `push_cmd` does return the storage error, but the task is not
absent from the queue: it has already been pushed to the in-memory FIFO,
and a subsequent `pop_next` hands it to a worker, making it visible in the
running set. -/
theorem failed_submit_task_still_poppable :
    (InMemoryQueue.push_cmd InMemoryQueue.newEmpty "a" exCmd false).err
        = some CmdqError.PickleDbWriteError ∧
    (InMemoryQueue.push_cmd InMemoryQueue.newEmpty "a" exCmd false).state.queue
        = [exTask] ∧
    "a" ∈ (InMemoryQueue.running
        ((InMemoryQueue.pop_next
          (InMemoryQueue.push_cmd InMemoryQueue.newEmpty "a" exCmd false).state).2)).map
        Task.id := by
  decide

/-- Claim C2 (amended): when the persistence write fails, `push_cmd`
returns the storage error; the persistence store (hence the `queued()`
snapshot) and the running set are unchanged, but the FIFO push is not
rolled back: the new task remains in the in-memory FIFO, from which it can
later be dequeued and executed. -/
theorem push_cmd_write_failure (s : QueueState) (id : String) (cmd : CommandRequest) :
    (InMemoryQueue.push_cmd s id cmd false).err = some CmdqError.PickleDbWriteError ∧
    (InMemoryQueue.push_cmd s id cmd false).state
      = { s with queue := s.queue ++
          [({ id := id, command := cmd, tries := 0, last_attempt := none } : Task)] } :=
  ⟨rfl, rfl⟩

/-! ### Claim C3 -/

/-- Claim C3 (counterexample): after `pop_next` moves `exTask` to the
running set, its record is still present in the persistence store, and a
restart from that store reloads the in-flight task into the FIFO: running
tasks are persisted and are recovered. -/
theorem popped_task_record_persisted :
    (InMemoryQueue.pop_next exPushed).1 = some exTask ∧
    exPopped.pickledb = [("a", exTask)] ∧
    (InMemoryQueue.new exPopped.pickledb).queue = [exTask] := by
  decide

/-- Claim C3 (amended): `pop_next` leaves the persistence store untouched,
so a running task's record stays persisted; a queue constructed from a
store holding k records reloads exactly those k tasks, with identical ids
and commands, into the FIFO (and an empty running set) — including tasks
that were in the running set at crash time. -/
theorem pop_next_preserves_store_and_recovery :
    (∀ s : QueueState, ((InMemoryQueue.pop_next s).2).pickledb = s.pickledb) ∧
    (∀ db : Store, (InMemoryQueue.new db).queue = db.map Prod.snd ∧
      (InMemoryQueue.new db).running = []) := by
  constructor
  · intro s
    cases hq : s.queue <;> simp [InMemoryQueue.pop_next, hq]
  · intro db
    exact ⟨rfl, rfl⟩

/-! ### Claim C4 -/

theorem mem_dbSet_self (l : Store) (k : String) (v : Task) : (k, v) ∈ dbSet l k v := by
  induction l with
  | nil => simp [dbSet]
  | cons p rest ih =>
      obtain ⟨k', v'⟩ := p
      by_cases hk : k' = k
      · simp [dbSet, hk]
      · simp only [dbSet, if_neg hk]
        exact List.mem_cons_of_mem _ ih

theorem pop_next_fst_mem (s : QueueState) (task : Task)
    (h : (InMemoryQueue.pop_next s).1 = some task) :
    task ∈ s.queue ∧ (task.id, task) ∈ ((InMemoryQueue.pop_next s).2).running := by
  cases hq : s.queue with
  | nil =>
      rw [show (InMemoryQueue.pop_next s).1 = none by simp [InMemoryQueue.pop_next, hq]] at h
      cases h
  | cons t rest =>
      have hp : InMemoryQueue.pop_next s
          = (some t, { s with queue := rest, running := dbSet s.running t.id t }) := by
        simp [InMemoryQueue.pop_next, hq]
      rw [hp] at h
      have ht : t = task := by simpa using h
      subst ht
      constructor
      · exact List.mem_cons_self _ _
      · rw [hp]
        exact mem_dbSet_self s.running t.id t

/-- Claim C4 (counterexample): the task moved to the running set by
`pop_next` still has `tries = 0` and `last_attempt = none`, exactly as it
was while queued: dequeue increments nothing and sets no timestamp. -/
theorem pop_next_no_tries_increment :
    (InMemoryQueue.pop_next exPushed).1 = some exTask ∧
    exPopped.running = [("a", exTask)] ∧
    exTask.tries = 0 ∧ exTask.last_attempt = none := by
  decide

/-- Claim C4 (amended): dequeue performs no attempt bookkeeping: `pop_next`
moves the head task into the running map with `tries` and `last_attempt`
unchanged (the identical task value).  The bookkeeping happens instead in
`update(id, Failed)`, which requeues the task with `tries` incremented by
exactly one and `last_attempt := now`; `update(id, Skipped)` requeues the
identical task value. -/
theorem dequeue_bookkeeping :
    (∀ (s : QueueState) (task : Task), (InMemoryQueue.pop_next s).1 = some task →
        task ∈ s.queue ∧ (task.id, task) ∈ ((InMemoryQueue.pop_next s).2).running) ∧
    (∀ (s : QueueState) (id : String) (task : Task) (now : Nat) (rr : Store),
        dashRemove s.running id = (some task, rr) →
        InMemoryQueue.update s id TaskRunResult.Failed now true
          = InMemoryQueue.UpdateResult.ok
              { s with running := rr,
                       pickledb := dbSet s.pickledb task.id
                         { task with tries := task.tries + 1, last_attempt := some now },
                       queue := s.queue ++
                         [{ task with tries := task.tries + 1,
                                      last_attempt := some now }] }) ∧
    (∀ (s : QueueState) (id : String) (task : Task) (now : Nat) (wok : Bool) (rr : Store),
        dashRemove s.running id = (some task, rr) →
        InMemoryQueue.update s id TaskRunResult.Skipped now wok
          = InMemoryQueue.UpdateResult.ok
              { s with running := rr, queue := s.queue ++ [task] }) :=
  ⟨pop_next_fst_mem,
   fun s id task now rr h => update_Failed_some_ok s id task now rr h,
   fun s id task now wok rr h => update_Skipped_some_ok s id task now wok rr h⟩

/-- Witness for `dequeue_bookkeeping`: the concrete dequeue of `exTask`
moves the unchanged task value into the running map. -/
theorem dequeue_bookkeeping_witness :
    exTask ∈ exPushed.queue ∧
    (exTask.id, exTask) ∈ ((InMemoryQueue.pop_next exPushed).2).running :=
  dequeue_bookkeeping.1 exPushed exTask (by decide)

/-! ### Claim C5 -/

/-- A task whose retries are exhausted: 21 recorded attempts. -/
def exhaustedTask : Task :=
  { id := "x", command := exCmd, tries := 21, last_attempt := some 0 }

/-- A queue state in which `exhaustedTask` is currently running (its record
also persisted, as `update(Failed)` leaves it). -/
def exhaustedState : QueueState :=
  { queue := [], running := [("x", exhaustedTask)],
    pickledb := [("x", exhaustedTask)] }

/-- Claim C5 (counterexample): a dequeued task with `tries = 21 >
MAX_RETRIES = 20` whose backoff window has elapsed is not reported as
Skipped: `run_task` takes the exhaustion branch, performs no `update` call
at all, and the task stays in the running set. -/
theorem exhausted_task_left_running :
    MAX_RETRIES = 20 ∧
    exhaustedTask.tries > MAX_RETRIES ∧
    backoffPending exhaustedTask 10000 = false ∧
    runTaskDecision exhaustedTask 10000 (some true) = RunDecision.droppedExhausted ∧
    run_task exhaustedTask exhaustedState 10000 (some true) true = exhaustedState ∧
    "x" ∈ (InMemoryQueue.running exhaustedState).map Task.id := by
  decide

/-- Claim C5 (amended): for every dequeued task whose tries exceed
MAX_RETRIES (= 20, inside the configured 10–20 range) and whose backoff
window has elapsed, `run_task` does not execute the external program — but
it reports nothing either: it returns without calling `queue.update`, the
queue state is untouched, and the task remains in the running set. -/
theorem run_task_exhaustion_drops_silently (task : Task) (s : QueueState) (now : Nat)
    (er : Option Bool) (wok : Bool)
    (htries : task.tries > MAX_RETRIES) (hback : backoffPending task now = false) :
    runTaskDecision task now er = RunDecision.droppedExhausted ∧
    run_task task s now er wok = s := by
  have hdec : runTaskDecision task now er = RunDecision.droppedExhausted := by
    simp [runTaskDecision, hback, htries]
  refine ⟨hdec, ?_⟩
  unfold run_task
  rw [hdec]

/-- Witness for `run_task_exhaustion_drops_silently` at the concrete
exhausted task. -/
theorem run_task_exhaustion_drops_silently_witness :
    runTaskDecision exhaustedTask 10000 (some true) = RunDecision.droppedExhausted ∧
    run_task exhaustedTask exhaustedState 10000 (some true) true = exhaustedState :=
  run_task_exhaustion_drops_silently exhaustedTask exhaustedState 10000 (some true) true
    (by decide) (by decide)

/-! ### Claim C6 -/

/-- Claim C6 (counterexample): for an id absent from the running set,
`update` does not return a not-found error: with outcome Failed or Skipped
it panics on the failed `expect`, and with outcome Completed it silently
succeeds. -/
theorem update_missing_id_no_error :
    InMemoryQueue.update InMemoryQueue.newEmpty "z" TaskRunResult.Failed 0 true
        = InMemoryQueue.UpdateResult.panicked InMemoryQueue.newEmpty ∧
    InMemoryQueue.update InMemoryQueue.newEmpty "z" TaskRunResult.Skipped 0 true
        = InMemoryQueue.UpdateResult.panicked InMemoryQueue.newEmpty ∧
    InMemoryQueue.update InMemoryQueue.newEmpty "z" TaskRunResult.Completed 0 true
        = InMemoryQueue.UpdateResult.ok InMemoryQueue.newEmpty := by
  decide

/-- Claim C6 (amended): `update` never returns a not-found error.  For an
id absent from the running map, `update(id, Completed)` silently succeeds
(removing at most a stale persisted record with that id), while
`update(id, Failed)` and `update(id, Skipped)` panic on the failed
`expect`; in every case the FIFO and the running map are unchanged. -/
theorem update_missing_id_behavior (s : QueueState) (id : String) (now : Nat)
    (wok : Bool) (h : id ∉ runningKeys s) :
    InMemoryQueue.update s id TaskRunResult.Completed now true
        = InMemoryQueue.UpdateResult.ok { s with pickledb := dbRem s.pickledb id } ∧
    InMemoryQueue.update s id TaskRunResult.Failed now wok
        = InMemoryQueue.UpdateResult.panicked s ∧
    InMemoryQueue.update s id TaskRunResult.Skipped now wok
        = InMemoryQueue.UpdateResult.panicked s := by
  have hdr : dashRemove s.running id = (none, s.running) := dashRemove_of_not_mem _ _ h
  refine ⟨?_, update_Failed_none s id now wok s.running hdr,
    update_Skipped_none s id now wok s.running hdr⟩
  unfold InMemoryQueue.update
  rw [hdr]
  rfl

/-- Witness for `update_missing_id_behavior` at a concrete state with the
id `"z"` absent from the running map. -/
theorem update_missing_id_behavior_witness :
    InMemoryQueue.update exPushed "z" TaskRunResult.Completed 3 true
        = InMemoryQueue.UpdateResult.ok { exPushed with pickledb := dbRem exPushed.pickledb "z" } ∧
    InMemoryQueue.update exPushed "z" TaskRunResult.Failed 3 true
        = InMemoryQueue.UpdateResult.panicked exPushed ∧
    InMemoryQueue.update exPushed "z" TaskRunResult.Skipped 3 true
        = InMemoryQueue.UpdateResult.panicked exPushed :=
  update_missing_id_behavior exPushed "z" 3 true (by decide)

/-! ### Claim C7 -/

/-- Claim C7 (confirmed): `delay(tries) = min(2 ^ tries, 600)` seconds, is
non-decreasing, is bounded by MAX_DELAY = 600, and in particular
`delay 1 = 2`, `delay 5 = 32`, `delay 10 = 600` (capped).  The formula
holds for every `tries`, so in particular for all `tries ≥ 1`. -/
theorem delay_formula :
    (∀ t : Nat, delay t = min (2 ^ t) 600) ∧
    (∀ a b : Nat, a ≤ b → delay a ≤ delay b) ∧
    (∀ t : Nat, delay t ≤ 600) ∧
    delay 1 = 2 ∧ delay 5 = 32 ∧ delay 10 = 600 := by
  have hmin : ∀ t : Nat, delay t = min (2 ^ t) 600 := by
    intro t
    simp only [delay, DELAY_SECONDS, MAX_DELAY_SECONDS]
    rcases le_or_lt (2 ^ t) 600 with h | h
    · rw [if_neg (not_lt_of_le h), Nat.min_eq_left h]
    · rw [if_pos h, Nat.min_eq_right (le_of_lt h)]
  refine ⟨hmin, ?_, ?_, by decide, by decide, by decide⟩
  · intro a b hab
    rw [hmin a, hmin b]
    exact min_le_min (Nat.pow_le_pow_right (by norm_num) hab) le_rfl
  · intro t
    rw [hmin t]
    exact min_le_right _ _

/-- Witness for `delay_formula`, discharging the monotonicity hypothesis at
a concrete pair. -/
theorem delay_formula_witness : delay 3 ≤ delay 7 :=
  delay_formula.2.1 3 7 (by decide)

/-! ### Claim C8 -/

/-- First submitted task of the concurrency scenario. -/
def tA : Task := { id := "a1", command := exCmd, tries := 0, last_attempt := none }

/-- Second submitted task of the concurrency scenario. -/
def tB : Task := { id := "b2", command := exCmd, tries := 0, last_attempt := none }

/-- Scheduler start state: two tasks queued (and persisted), no worker yet. -/
def schedInit : SchedState :=
  { qs := { queue := [tA, tB], running := [], pickledb := [("a1", tA), ("b2", tB)] },
    pending := [], active := [], num_running_tasks := 0 }

/-- After the first loop iteration: `tA` popped and its worker spawned. -/
def schedMid1 : SchedState :=
  { qs := { queue := [tB], running := [("a1", tA)],
            pickledb := [("a1", tA), ("b2", tB)] },
    pending := [tA], active := [], num_running_tasks := 0 }

/-- After the second loop iteration, still before any increment. -/
def schedMid2 : SchedState :=
  { qs := { queue := [], running := [("a1", tA), ("b2", tB)],
            pickledb := [("a1", tA), ("b2", tB)] },
    pending := [tA, tB], active := [], num_running_tasks := 0 }

/-- After `tA`'s worker increments the counter and starts executing. -/
def schedMid3 : SchedState :=
  { qs := schedMid2.qs, pending := [tB], active := [tA], num_running_tasks := 1 }

/-- After `tB`'s worker also increments: two workers executing at once. -/
def schedBad : SchedState :=
  { qs := schedMid2.qs, pending := [], active := [tA, tB], num_running_tasks := 2 }

/-- Claim C8 (code bug): with `num_workers = 1` and two ready tasks, the
scheduler can reach a state in which two workers concurrently hold and
execute tasks.  `run_loop` checks `num_running_tasks < N` before each pop,
but the increment happens inside the spawned worker thread, so both loop
iterations can pass the guard before either increment runs: the concrete
interleaving pop, pop, increment, increment is reachable and ends with
`active.length = 2 > 1 = N`. -/
theorem run_loop_concurrency_bound_violated :
    SchedReach 1 schedInit schedBad ∧
    schedBad.active.length = 2 ∧ schedBad.num_running_tasks = 2 ∧ 1 < 2 := by
  refine ⟨?_, rfl, rfl, by decide⟩
  have h1 : SchedStep 1 schedInit schedMid1 :=
    SchedStep.loopPop schedInit schedMid1 tA schedMid1.qs (by decide) (by decide) (by decide)
  have h2 : SchedStep 1 schedMid1 schedMid2 :=
    SchedStep.loopPop schedMid1 schedMid2 tB schedMid2.qs (by decide) (by decide) (by decide)
  have h3 : SchedStep 1 schedMid2 schedMid3 :=
    SchedStep.workerInc schedMid2 schedMid3 tA [] [tB] (by decide) (by decide)
  have h4 : SchedStep 1 schedMid3 schedBad :=
    SchedStep.workerInc schedMid3 schedBad tB [] [] (by decide) (by decide)
  exact SchedReach.tail (SchedReach.tail (SchedReach.tail
    (SchedReach.tail (SchedReach.refl schedInit) h1) h2) h3) h4

/-! ### Claim C9 -/

/-- Claim C9 (confirmed): `update(id, Skipped)` is a pure requeue: the task
running under `id` is removed from the running map and the identical task
value — same id, command, tries and last_attempt — is appended to the tail
of the FIFO, with the persistence store untouched. -/
theorem update_skipped_pure_requeue (s : QueueState) (id : String) (task : Task)
    (now : Nat) (wok : Bool) (rr : Store)
    (h : dashRemove s.running id = (some task, rr)) :
    InMemoryQueue.update s id TaskRunResult.Skipped now wok
      = InMemoryQueue.UpdateResult.ok
          { queue := s.queue ++ [task], running := rr, pickledb := s.pickledb } :=
  update_Skipped_some_ok s id task now wok rr h

/-- Witness for `update_skipped_pure_requeue`: skipping the in-flight task
of `exPopped` puts the identical task value back at the FIFO tail. -/
theorem update_skipped_pure_requeue_witness :
    InMemoryQueue.update exPopped "a" TaskRunResult.Skipped 7 true
      = InMemoryQueue.UpdateResult.ok
          { queue := exPopped.queue ++ [exTask], running := [],
            pickledb := exPopped.pickledb } :=
  update_skipped_pure_requeue exPopped "a" exTask 7 true [] (by decide)

/-! ### Claim C10 -/

/-- Claim C10 (confirmed): the backoff window is consulted only when
`tries > 1` and a last attempt is recorded: for a dequeued task with
`tries ≤ 1` or `last_attempt = none`, `run_task` never takes the
backoff-skip branch and proceeds directly to the exhaustion check and, if
that passes, to execution — without waiting. -/
theorem fresh_task_never_backoff_skipped (task : Task) (now : Nat) (er : Option Bool)
    (h : task.tries ≤ 1 ∨ task.last_attempt = none) :
    backoffPending task now = false ∧
    runTaskDecision task now er
      = (if task.tries > MAX_RETRIES then RunDecision.droppedExhausted
         else RunDecision.executed er) := by
  have hb : backoffPending task now = false := by
    rcases h with h1 | h2
    · have hn : ¬ (task.tries > 1) := Nat.not_lt.mpr h1
      simp [backoffPending, hn]
    · simp [backoffPending, h2]
  refine ⟨hb, ?_⟩
  simp [runTaskDecision, hb]

/-- Witness for `fresh_task_never_backoff_skipped` at the freshly submitted
task (`tries = 0`). -/
theorem fresh_task_never_backoff_skipped_witness :
    backoffPending exTask 0 = false ∧
    runTaskDecision exTask 0 (some false)
      = (if exTask.tries > MAX_RETRIES then RunDecision.droppedExhausted
         else RunDecision.executed (some false)) :=
  fresh_task_never_backoff_skipped exTask 0 (some false) (Or.inl (by decide))

end CmdQueue
